import Mathlib

/-!
Verification of the per-room voice-turn pipeline of the Merith Discord bot.

This file shallowly embeds the Python source (src/voice_handler.py,
src/discord_client.py, src/llm_client.py) into Lean.  Conventions:

* Time is modelled in centiseconds (1 poll interval of 0.1 s = 10 cs,
  the silence timeout 3.0 s = 300 cs, the hard ceilings 30 s = 3000 cs).
* The stream of audio packets a sink receives is an input list of
  timestamped writes; the sink is created at time 0 with
  last_packet_time = 0, as in AudioSink.__init__.
* Text values are lists of characters; Python str.strip() is pyStrip.
* External collaborators (speech recognition, the language-model HTTP
  endpoint, speech synthesis, the Discord transport) are oracles: their
  outcomes are inputs to the embedded functions.
* PCM payloads are kept as raw integer samples; the float normalisation
  in get_audio_data does not affect any claim and is not modelled.
* asyncio loops are embedded as fuel-bounded structural recursions; the
  fuel is chosen large enough that the hard 30 s ceilings fire first,
  which is proved where needed.
-/

namespace Merith

/-- One audio packet delivered by the transport to AudioSink.write:
arrival time (centiseconds), speaker id, and PCM payload.  A schedule of
writes is a list ordered by arrival. -/
structure Write where
  time : Nat
  user : Nat
  pcm : List Int
deriving DecidableEq, Repr

/-- The sink's last_packet_time as observed at time t: the sink is created
at time 0 and write updates it to the arrival time of each packet. -/
def lastPacketAt (ws : List Write) (t : Nat) : Nat :=
  ws.foldr (fun w acc => if w.time ≤ t then max w.time acc else acc) 0

/-- Appending one packet to the per-speaker buffer dictionary
(AudioSink.write): insertion order of keys is preserved, payload bytes are
appended, mirroring the io.BytesIO per user. -/
def addWrite (bs : List (Nat × List Int)) (u : Nat) (p : List Int) : List (Nat × List Int) :=
  match bs with
  | [] => [(u, p)]
  | (v, b) :: rest => if v = u then (v, b ++ p) :: rest else (v, b) :: addWrite rest u p

/-- The sink's audio_data dictionary at time t, where lo is the time of the
last cleanup (reset): exactly the writes with lo < time ≤ t have been
accumulated since. -/
def sinkBuffers (ws : List Write) (lo t : Nat) : List (Nat × List Int) :=
  (ws.filter (fun w => decide (lo < w.time) && decide (w.time ≤ t))).foldl
    (fun bs w => addWrite bs w.user w.pcm) []

/-- Exit of the silence-wait loop in record_audio_from_channel: either the
silence condition fired at time t, or the 30 s ceiling fired at time t. -/
inductive WaitExit where
  | silence (t : Nat)
  | ceiling (t : Nat)
deriving DecidableEq, Repr

/-- Exit time of a WaitExit. -/
def WaitExit.time : WaitExit → Nat
  | .silence t => t
  | .ceiling t => t

/-- The wait loop of record_audio_from_channel, poll index k, polls at
times t0 + 10 k.  Mirrors:
while now - last_packet_time < duration: sleep 0.1; refresh
last_packet_time; if now - start_wait is above 30 s return None.
The fuel bounds the recursion; 302 is enough because the ceiling fires at
the poll after elapsed time exceeds 3000 cs. -/
def waitFrom (ws : List Write) (D t0 : Nat) : Nat → Nat → Option WaitExit
  | 0, _ => none
  | fuel + 1, k =>
    if t0 + 10 * k < lastPacketAt ws (t0 + 10 * k) + D then
      if 3000 < 10 * (k + 1) then some (.ceiling (t0 + 10 * (k + 1)))
      else waitFrom ws D t0 fuel (k + 1)
    else some (.silence (t0 + 10 * k))

/-- The full silence wait starting at time t0 with silence timeout D. -/
def recordWait (ws : List Write) (D t0 : Nat) : Option WaitExit :=
  waitFrom ws D t0 302 0

/-- A Turn emitted by the endpointer: the selected speaker and the
snapshot of their buffer. -/
structure Turn where
  userId : Nat
  samples : List Int
deriving DecidableEq, Repr

/-- Observable outcome of one record_audio_from_channel call: the value
returned, the time of the sink cleanup (reset) if one happened, and the
time at which the call returned. -/
structure RecordOut where
  result : Option Turn
  resetAt : Option Nat
  endTime : Nat
deriving DecidableEq, Repr

/-- The snapshot block of record_audio_from_channel reached on silence at
time ts: return None if no speaker has data or the first speaker's bytes
are empty (no cleanup on either path), else snapshot the first speaker's
buffer, clean the sink up (the reset) and return the turn. -/
def recordSnapshot (ws : List Write) (lo ts : Nat) : RecordOut :=
  match sinkBuffers ws lo ts with
  | [] => { result := none, resetAt := none, endTime := ts }
  | (u, b) :: _ =>
    if b = [] then { result := none, resetAt := none, endTime := ts }
    else { result := some { userId := u, samples := b }, resetAt := some ts, endTime := ts }

/-- record_audio_from_channel: guard on the connection, wait for silence;
on the 30 s ceiling return None (no buffer inspection, no cleanup); on
silence run the snapshot block.  lo is the time of the previous cleanup,
t0 the time the call starts. -/
def recordAudioFromChannel (connected : Bool) (ws : List Write) (D lo t0 : Nat) : RecordOut :=
  if !connected then { result := none, resetAt := none, endTime := t0 }
  else
    match recordWait ws D t0 with
    | none => { result := none, resetAt := none, endTime := t0 }
    | some (.ceiling tc) => { result := none, resetAt := none, endTime := tc }
    | some (.silence ts) => recordSnapshot ws lo ts

/-- Python str.strip(): drop whitespace from both ends. -/
def pyStrip (l : List Char) : List Char :=
  ((l.dropWhile Char.isWhitespace).reverse.dropWhile Char.isWhitespace).reverse

/-- msg.replace(".", "").replace(" ", "").strip() from full_voice_loop's
noise filter. -/
def stripNoise (l : List Char) : List Char :=
  pyStrip (l.filter (fun c => !(c == '.' || c == ' ')))

/-- The check (not text or text.startswith("[")) used on recognized text
and on language-model replies: empty, or carrying a bracketed sentinel. -/
def isSentinelOrEmpty (msg : List Char) : Bool :=
  msg.isEmpty ||
    (match msg with
     | '[' :: _ => true
     | _ => false)

/-- The complete discard test of full_voice_loop: sentinel or empty, or
empty after stripping dots and spaces (background noise). -/
def isFiltered (msg : List Char) : Bool :=
  isSentinelOrEmpty msg || (stripNoise msg).isEmpty

/-- Outcome of one attempt at the language-model HTTP call, as produced by
the external endpoint: 200 with a body, a non-200 status, an
asyncio timeout, or any other exception. -/
inductive LlmAttempt where
  | ok (text : List Char)
  | httpError (code : Nat)
  | timeout
  | exn

/-- True when the attempt is a 200 response. -/
def LlmAttempt.isOk : LlmAttempt → Bool
  | .ok _ => true
  | _ => false

/-- Observable outcome of generate_response_async: the returned text, the
number of HTTP attempts performed, and the sleeps taken between
attempts. -/
structure GenOut where
  result : List Char
  calls : Nat
  sleeps : List Nat
deriving DecidableEq, Repr

/-- The sentinel returned by generate_response_async after all retries
are exhausted. -/
def unavailableSentinel : List Char :=
  ['[', 'L', 'M', ' ', 'S', 't', 'u', 'd', 'i', 'o', ' ',
   'u', 'n', 'a', 'v', 'a', 'i', 'l', 'a', 'b', 'l', 'e', ']']

/-- The retry loop of generate_response_async.  remaining counts the
attempts still allowed (initially retry_attempts), i is the index of the
current attempt.  On a 200 the stripped content is returned; on any
failure the loop sleeps retry_delay if this is not the last attempt and
retries; when attempts are exhausted the sentinel is returned. -/
def generateFrom (llm : Nat → LlmAttempt) (delay : Nat) : Nat → Nat → GenOut
  | 0, _ => { result := unavailableSentinel, calls := 0, sleeps := [] }
  | remaining + 1, i =>
    match llm i with
    | .ok t => { result := pyStrip t, calls := 1, sleeps := [] }
    | _ =>
      let rest := generateFrom llm delay remaining (i + 1)
      if 0 < remaining then
        { result := rest.result, calls := rest.calls + 1, sleeps := delay :: rest.sleeps }
      else
        { result := rest.result, calls := rest.calls + 1, sleeps := rest.sleeps }

/-- generate_response_async with the configured attempt count and delay. -/
def generateResponseAsync (llm : Nat → LlmAttempt) (retryAttempts retryDelay : Nat) : GenOut :=
  generateFrom llm retryDelay retryAttempts 0

/-- How the playback section of process_voice_message exited: playback
observed finished within the ceiling, the 30 s ceiling was hit while still
playing, or an exception was raised creating the source or starting
playback. -/
inductive PlayExit where
  | completed
  | timedOut
  | raised
deriving DecidableEq, Repr

/-- Observable outcome of the playback section: whether playback was
started, the times (relative to playback start) at which the temp file was
unlinked, the time the section returned control, and the exit kind. -/
structure PlayTrace where
  playCalled : Bool
  deletions : List Nat
  retTime : Nat
  exit : PlayExit
deriving DecidableEq, Repr

/-- The wait loop after voice_client.play: while is_playing() and
waited < 30: sleep 0.1.  finish is the time the player thread ends
(is_playing becomes false); polls at multiples of 10 cs. -/
def playWaitFrom (finish : Nat) : Nat → Nat → Nat
  | 0, t => t
  | fuel + 1, t => if t < finish && t < 3000 then playWaitFrom finish fuel (t + 10) else t

/-- Lines 311-352 of process_voice_message together with the
_on_playback_done callback.  If creating the FFmpeg source or calling
play raises, the except block unlinks the temp file (the callback never
ran) and re-raises.  Otherwise play starts, the after callback unlinks
the file when the player thread ends at finish, and the wait loop returns
at the first poll with playback finished or 3000 cs elapsed. -/
def playAndCleanup (sourceError playError : Bool) (finish : Nat) : PlayTrace :=
  if sourceError || playError then
    { playCalled := false, deletions := [0], retTime := 0, exit := .raised }
  else
    let ret := playWaitFrom finish 301 0
    { playCalled := true, deletions := [finish], retTime := ret,
      exit := if finish ≤ ret then .completed else .timedOut }

/-- Oracle inputs for one process_voice_message run: the language-model
endpoint behaviour and retry configuration, the synthesizer result, and
the transport behaviour during playback. -/
structure ProcOracle where
  retryAttempts : Nat
  retryDelay : Nat
  llm : Nat → LlmAttempt
  ttsPath : Option (List Char)
  ttsExists : Bool
  logChannel : Bool
  logSendFails : Bool
  sourceError : Bool
  playError : Bool
  playFinish : Nat

/-- Observable outcome of process_voice_message. -/
structure ProcTrace where
  llmResult : List Char
  llmCalls : Nat
  llmSleeps : List Nat
  ttsCalled : Bool
  loggedBot : Bool
  playCalled : Bool
  play : Option PlayTrace
  success : Bool
deriving DecidableEq, Repr

/-- process_voice_message: guard on connection, language-model call,
abort on empty or bracketed reply, synthesize, abort when no path or the
file is missing, then the playback section; a raise in the playback
section is caught by the outer handler and returns False. -/
def processVoiceMessage (connected : Bool) (o : ProcOracle) : ProcTrace :=
  if !connected then
    { llmResult := [], llmCalls := 0, llmSleeps := [], ttsCalled := false,
      loggedBot := false, playCalled := false, play := none, success := false }
  else
    let g := generateResponseAsync o.llm o.retryAttempts o.retryDelay
    if isSentinelOrEmpty g.result then
      { llmResult := g.result, llmCalls := g.calls, llmSleeps := g.sleeps,
        ttsCalled := false, loggedBot := false, playCalled := false,
        play := none, success := false }
    else
      match o.ttsPath with
      | none =>
        { llmResult := g.result, llmCalls := g.calls, llmSleeps := g.sleeps,
          ttsCalled := true, loggedBot := false, playCalled := false,
          play := none, success := false }
      | some _ =>
        if !o.ttsExists then
          { llmResult := g.result, llmCalls := g.calls, llmSleeps := g.sleeps,
            ttsCalled := true, loggedBot := false, playCalled := false,
            play := none, success := false }
        else
          let pb := playAndCleanup o.sourceError o.playError o.playFinish
          { llmResult := g.result, llmCalls := g.calls, llmSleeps := g.sleeps,
            ttsCalled := true,
            loggedBot := !o.sourceError && (o.logChannel && !o.logSendFails),
            playCalled := pb.playCalled, play := some pb,
            success := match pb.exit with
                       | .raised => false
                       | _ => true }

/-- Oracle inputs for one iteration of full_voice_loop: the loop-head
connection check, possible cancellation at the next suspension point, the
recognizer's behaviour, the text-log channel, the wall time the
transcription and pipeline take, and the process_voice_message oracles. -/
structure IterOracle where
  connected : Bool
  cancelled : Bool
  sttRaises : Bool
  sttText : List Char
  sttDur : Nat
  logChannel : Bool
  logUserFails : Bool
  procDur : Nat
  proc : ProcOracle

/-- Observable outcome of one iteration of full_voice_loop:
extraction interval, the buffer window start used by the extraction, the
turn emitted, the reset time, whether the iteration hit the broad
exception handler, whether the user transcript was posted, the
process_voice_message trace and its time interval, and the time the
iteration ended. -/
structure IterRecord where
  extractStart : Nat
  extractEnd : Nat
  bufferLo : Nat
  turn : Option Turn
  resetAt : Option Nat
  errored : Bool
  loggedUser : Bool
  procT : Option ProcTrace
  pipe : Option (Nat × Nat)
  endT : Nat
deriving DecidableEq, Repr

/-- One iteration of the body of full_voice_loop, starting at time t with
buffer window opening at lo: wait for audio; on None sleep 0.5 s and
continue; transcribe (an executor exception reaches the broad handler
which sleeps 1 s); discard filtered text after a 0.5 s sleep; otherwise
post the user transcript (failures swallowed) and run
process_voice_message, whose result is not inspected. -/
def fullVoiceLoopIter (ws : List Write) (D lo t : Nat) (o : IterOracle) : IterRecord :=
  match (recordAudioFromChannel true ws D lo t).result with
  | none =>
    { extractStart := t, extractEnd := (recordAudioFromChannel true ws D lo t).endTime,
      bufferLo := lo, turn := none,
      resetAt := (recordAudioFromChannel true ws D lo t).resetAt,
      errored := false, loggedUser := false, procT := none, pipe := none,
      endT := (recordAudioFromChannel true ws D lo t).endTime + 50 }
  | some tu =>
    if o.sttRaises then
      { extractStart := t, extractEnd := (recordAudioFromChannel true ws D lo t).endTime,
        bufferLo := lo, turn := some tu,
        resetAt := (recordAudioFromChannel true ws D lo t).resetAt,
        errored := true, loggedUser := false, procT := none, pipe := none,
        endT := (recordAudioFromChannel true ws D lo t).endTime + o.sttDur + 100 }
    else if isFiltered o.sttText then
      { extractStart := t, extractEnd := (recordAudioFromChannel true ws D lo t).endTime,
        bufferLo := lo, turn := some tu,
        resetAt := (recordAudioFromChannel true ws D lo t).resetAt,
        errored := false, loggedUser := false, procT := none, pipe := none,
        endT := (recordAudioFromChannel true ws D lo t).endTime + o.sttDur + 50 }
    else
      { extractStart := t, extractEnd := (recordAudioFromChannel true ws D lo t).endTime,
        bufferLo := lo, turn := some tu,
        resetAt := (recordAudioFromChannel true ws D lo t).resetAt,
        errored := false, loggedUser := o.logChannel && !o.logUserFails,
        procT := some (processVoiceMessage true o.proc),
        pipe := some ((recordAudioFromChannel true ws D lo t).endTime + o.sttDur,
                      (recordAudioFromChannel true ws D lo t).endTime + o.sttDur + o.procDur),
        endT := (recordAudioFromChannel true ws D lo t).endTime + o.sttDur + o.procDur }

/-- The buffer window start seen by the next iteration: advanced to the
reset time when this iteration cleaned the sink up, else unchanged. -/
def nextLo (lo : Nat) (r : IterRecord) : Nat :=
  match r.resetAt with
  | some t => t
  | none => lo

/-- full_voice_loop: while the guild is connected, run iterations
sequentially; each iteration is awaited to completion before the next
begins; a CancelledError breaks the loop; the loop-head check failing ends
it.  The iteration oracles are consumed in order. -/
def fullVoiceLoop (ws : List Write) (D : Nat) : List IterOracle → Nat → Nat → List IterRecord
  | [], _, _ => []
  | o :: os, lo, t =>
    if o.connected && !o.cancelled then
      fullVoiceLoopIter ws D lo t o ::
        fullVoiceLoop ws D os (nextLo lo (fullVoiceLoopIter ws D lo t o))
          (fullVoiceLoopIter ws D lo t o).endT
    else []

/-- The voice-related state of the bot: the voice_clients map of
VoiceHandler and the voice_loops map of the MerithBot cog, both keyed by
guild id. -/
structure JoinState where
  voiceClients : List (Nat × Nat)
  voiceLoops : List (Nat × Nat)
deriving DecidableEq, Repr

/-- Oracle inputs for a join command: whether the member is in a voice
channel, whether disconnect from an existing channel raises, what
channel.connect returns (none = raises), and whether the confirmation
message send raises. -/
structure JoinOracle where
  userInVoice : Bool
  disconnectRaises : Bool
  connectResult : Option Nat
  sendFails : Bool
deriving DecidableEq, Repr

/-- Dictionary assignment m[k] = v on an association list. -/
def setEntry (m : List (Nat × Nat)) (k v : Nat) : List (Nat × Nat) :=
  match m with
  | [] => [(k, v)]
  | (k2, v2) :: rest => if k2 = k then (k, v) :: rest else (k2, v2) :: setEntry rest k v

/-- VoiceHandler.join_voice_channel: guard on the member being in voice;
disconnect from an existing connection (a raise is caught and returns
False); connect (a raise is caught and returns False); only on success is
voice_clients[guild] assigned.  Returns (success, new voice_clients). -/
def joinVoiceChannel (vcs : List (Nat × Nat)) (gid : Nat) (o : JoinOracle) :
    Bool × List (Nat × Nat) :=
  if !o.userInVoice then (false, vcs)
  else if (vcs.lookup gid).isSome && o.disconnectRaises then (false, vcs)
  else
    match o.connectResult with
    | none => (false, vcs)
    | some h => (true, setEntry vcs gid h)

/-- MerithBot.join_voice: guard on the user being in voice, call
join_voice_channel, and only on success - after the confirmation message,
whose raise aborts via the except handler - create the voice loop task if
none is registered for the guild.  Returns the new state and whether a
new voice loop task was started. -/
def joinVoice (st : JoinState) (gid : Nat) (o : JoinOracle) : JoinState × Bool :=
  if !o.userInVoice then (st, false)
  else
    if (joinVoiceChannel st.voiceClients gid o).1 then
      if o.sendFails then
        ({ voiceClients := (joinVoiceChannel st.voiceClients gid o).2,
           voiceLoops := st.voiceLoops }, false)
      else if (st.voiceLoops.lookup gid).isNone then
        ({ voiceClients := (joinVoiceChannel st.voiceClients gid o).2,
           voiceLoops := setEntry st.voiceLoops gid 1 }, true)
      else
        ({ voiceClients := (joinVoiceChannel st.voiceClients gid o).2,
           voiceLoops := st.voiceLoops }, false)
    else
      ({ voiceClients := (joinVoiceChannel st.voiceClients gid o).2,
         voiceLoops := st.voiceLoops }, false)

/-- Python range(0, stop, step) for positive step: the slice start
indices used by _chunk_text. -/
def pyRange (stop step : Nat) : List Nat :=
  (List.range ((stop + step - 1) / step)).map (fun j => j * step)

/-- MerithBot._chunk_text: for i in range(0, len(text), n) yield
text[i:i+n]. -/
def chunkText (text : List Char) (n : Nat) : List (List Char) :=
  (pyRange text.length n).map (fun i => (text.drop i).take n)

/-- Internal sanity bounds of one loop iteration: extraction precedes the
pipeline interval, which lies inside the iteration. -/
def IterOk (r : IterRecord) : Prop :=
  r.extractStart ≤ r.extractEnd ∧ r.extractEnd ≤ r.endT ∧
    ∀ s e, r.pipe = some (s, e) → r.extractEnd ≤ s ∧ s ≤ e ∧ e ≤ r.endT

/-- Serialization of two iteration records: any pipeline run of the first
ends no later than the second's extraction begins, and no later than any
pipeline run of the second begins. -/
def pipeSeq (a b : IterRecord) : Prop :=
  ∀ s e, a.pipe = some (s, e) →
    e ≤ b.extractStart ∧ ∀ s2 e2, b.pipe = some (s2, e2) → e ≤ s2

/-- Chaining of consecutive iteration records: the buffer window of the
next iteration opens at the previous iteration's reset (or is carried
over), and the next extraction starts when the previous iteration
ended. -/
def resetRel (a b : IterRecord) : Prop :=
  b.bufferLo = nextLo a.bufferLo a ∧ b.extractStart = a.endT

/-! Concrete inputs used by witnesses and counterexamples. -/

/-- A single packet at time 0 from speaker 1. -/
def c2ws : List Write := [⟨0, 1, [1]⟩]

/-- Packets at 1500 cs and 3000 cs: every inter-packet gap (including the
gap from sink creation) is 1500 cs, below a 2000 cs silence timeout, so
the speaker keeps the wait loop alive until the 30 s ceiling. -/
def c3ws : List Write := [⟨1500, 7, [1]⟩, ⟨3000, 7, [2]⟩]

/-- A first utterance at 10 cs and a packet at 350 cs, which falls inside
the first turn's pipeline interval. -/
def c8ws : List Write := [⟨10, 7, [1, 2]⟩, ⟨350, 7, [9]⟩]

/-- A benign process_voice_message oracle: the language model answers on
the first attempt, synthesis succeeds, playback finishes at 80 cs. -/
def sampleProc : ProcOracle :=
  { retryAttempts := 3, retryDelay := 100, llm := fun _ => LlmAttempt.ok ['H', 'i'],
    ttsPath := some ['p'], ttsExists := true, logChannel := true, logSendFails := false,
    sourceError := false, playError := false, playFinish := 80 }

/-- Iteration oracle with recognized text "hi" (not filtered). -/
def c8oA : IterOracle :=
  { connected := true, cancelled := false, sttRaises := false, sttText := ['h', 'i'],
    sttDur := 10, logChannel := true, logUserFails := false, procDur := 100,
    proc := sampleProc }

/-- Iteration oracle whose recognized text is a bracketed sentinel. -/
def c8oB : IterOracle :=
  { connected := true, cancelled := false, sttRaises := false, sttText := ['['],
    sttDur := 10, logChannel := true, logUserFails := false, procDur := 100,
    proc := sampleProc }

/-- Packet schedule for the C5 witness: one packet at 5 cs. -/
def c5ws : List Write := [⟨5, 7, [1]⟩]

/-- Iteration oracle for the C5 witness: recognition returns a bracketed
sentinel. -/
def c5o : IterOracle :=
  { connected := true, cancelled := false, sttRaises := false, sttText := ['['],
    sttDur := 10, logChannel := true, logUserFails := false, procDur := 100,
    proc := sampleProc }

/-- Language-model oracle for the C6 witness: every attempt times out. -/
def c6o : ProcOracle :=
  { retryAttempts := 3, retryDelay := 100, llm := fun _ => LlmAttempt.timeout,
    ttsPath := some ['p'], ttsExists := true, logChannel := true, logSendFails := false,
    sourceError := false, playError := false, playFinish := 80 }

/-- Language-model oracle for the C6 witness's empty-reply case: the
first attempt succeeds with a 200 whose content strips to empty. -/
def c6oEmpty : ProcOracle :=
  { retryAttempts := 3, retryDelay := 100, llm := fun _ => LlmAttempt.ok [' ', ' '],
    ttsPath := some ['p'], ttsExists := true, logChannel := true, logSendFails := false,
    sourceError := false, playError := false, playFinish := 80 }

/-- Oracle for the C7 witness: synthesis returns no audio path. -/
def c7po : ProcOracle :=
  { retryAttempts := 3, retryDelay := 100, llm := fun _ => LlmAttempt.ok ['H', 'i'],
    ttsPath := none, ttsExists := false, logChannel := true, logSendFails := false,
    sourceError := false, playError := false, playFinish := 80 }

/-- Iteration oracle for the C7 witness: connected, not cancelled,
synthesis failing. -/
def c7io : IterOracle :=
  { connected := true, cancelled := false, sttRaises := false, sttText := ['h', 'i'],
    sttDur := 10, logChannel := true, logUserFails := false, procDur := 100,
    proc := c7po }

/-- Join oracle for a successful join into an empty state. -/
def c1jo : JoinOracle :=
  { userInVoice := true, disconnectRaises := false, connectResult := some 5,
    sendFails := false }

/-- Join oracle whose disconnect raises: the join fails. -/
def c9jo : JoinOracle :=
  { userInVoice := true, disconnectRaises := true, connectResult := some 5,
    sendFails := false }

/-! Helper lemmas. -/

theorem lastPacketAt_le (ws : List Write) (t : Nat) : lastPacketAt ws t ≤ t := by
  induction ws with
  | nil => exact Nat.zero_le t
  | cons w ws ih =>
    unfold lastPacketAt at *
    simp only [List.foldr_cons]
    by_cases hw : w.time ≤ t
    · simp only [if_pos hw]
      exact Nat.max_le.mpr ⟨hw, ih⟩
    · simp only [if_neg hw]
      exact ih

theorem lastPacketAt_mono (ws : List Write) {t t2 : Nat} (h : t ≤ t2) :
    lastPacketAt ws t ≤ lastPacketAt ws t2 := by
  induction ws with
  | nil => exact le_refl 0
  | cons w ws ih =>
    unfold lastPacketAt at *
    simp only [List.foldr_cons]
    by_cases hw : w.time ≤ t
    · have hw2 : w.time ≤ t2 := le_trans hw h
      simp only [if_pos hw, if_pos hw2]
      exact max_le_max (le_refl w.time) ih
    · simp only [if_neg hw]
      by_cases hw2 : w.time ≤ t2
      · simp only [if_pos hw2]
        exact le_trans ih (Nat.le_max_right _ _)
      · simp only [if_neg hw2]
        exact ih

theorem waitFrom_time_ge (ws : List Write) (D t0 : Nat) :
    ∀ fuel k e, waitFrom ws D t0 fuel k = some e → t0 ≤ e.time := by
  intro fuel
  induction fuel with
  | zero => intro k e h; simp [waitFrom] at h
  | succ fuel ih =>
    intro k e h
    unfold waitFrom at h
    split at h
    · split at h
      · cases h
        simp only [WaitExit.time]
        omega
      · exact ih _ _ h
    · cases h
      simp only [WaitExit.time]
      omega

theorem recordSnapshot_endTime (ws : List Write) (lo ts : Nat) :
    (recordSnapshot ws lo ts).endTime = ts := by
  unfold recordSnapshot
  rcases sinkBuffers ws lo ts with _ | ⟨⟨u, b⟩, tail⟩
  · rfl
  · by_cases hbe : b = []
    · simp [hbe]
    · simp [hbe]

theorem recordSnapshot_spec (ws : List Write) (lo ts : Nat) :
    (∀ tu, (recordSnapshot ws lo ts).result = some tu →
        (recordSnapshot ws lo ts).resetAt = some ts ∧
        ∃ rest, sinkBuffers ws lo ts = (tu.userId, tu.samples) :: rest ∧ tu.samples ≠ []) ∧
    ((recordSnapshot ws lo ts).result = none → (recordSnapshot ws lo ts).resetAt = none) := by
  rcases hb : sinkBuffers ws lo ts with _ | ⟨⟨u, b⟩, tail⟩
  · simp [recordSnapshot, hb]
  · by_cases hbe : b = []
    · simp [recordSnapshot, hb, hbe]
    · simp only [recordSnapshot, hb]
      constructor
      · intro tu htu
        simp only [if_neg hbe, Option.some.injEq] at htu ⊢
        subst htu
        simp [hbe]
      · intro h
        simp only [if_neg hbe] at h
        cases h

theorem recordAudio_endTime_ge (ws : List Write) (D lo t0 : Nat) :
    t0 ≤ (recordAudioFromChannel true ws D lo t0).endTime := by
  unfold recordAudioFromChannel
  simp only [Bool.not_true, Bool.false_eq_true, if_false]
  cases hw : recordWait ws D t0 with
  | none => simp
  | some e =>
    have hge := waitFrom_time_ge ws D t0 302 0 e hw
    cases e with
    | ceiling tc =>
      simpa [WaitExit.time] using hge
    | silence ts =>
      simp only [WaitExit.time] at hge
      rw [recordSnapshot_endTime]
      exact hge

theorem record_ceiling_spec (ws : List Write) (D lo t0 tc : Nat)
    (h : recordWait ws D t0 = some (WaitExit.ceiling tc)) :
    recordAudioFromChannel true ws D lo t0
      = { result := none, resetAt := none, endTime := tc } := by
  unfold recordAudioFromChannel
  rw [h]
  rfl

theorem record_silence_spec (ws : List Write) (D lo t0 ts : Nat)
    (h : recordWait ws D t0 = some (WaitExit.silence ts)) :
    recordAudioFromChannel true ws D lo t0 = recordSnapshot ws lo ts := by
  unfold recordAudioFromChannel
  rw [h]
  rfl

theorem record_stuck_spec (ws : List Write) (D lo t0 : Nat)
    (h : recordWait ws D t0 = none) :
    recordAudioFromChannel true ws D lo t0
      = { result := none, resetAt := none, endTime := t0 } := by
  unfold recordAudioFromChannel
  rw [h]
  rfl

theorem record_result_spec (ws : List Write) (D lo t0 : Nat) :
    (∀ tu, (recordAudioFromChannel true ws D lo t0).result = some tu →
        ∃ ts, recordWait ws D t0 = some (WaitExit.silence ts) ∧
          (recordAudioFromChannel true ws D lo t0).endTime = ts ∧
          (recordAudioFromChannel true ws D lo t0).resetAt = some ts ∧
          ∃ rest, sinkBuffers ws lo ts = (tu.userId, tu.samples) :: rest ∧ tu.samples ≠ []) ∧
    ((recordAudioFromChannel true ws D lo t0).result = none →
        (recordAudioFromChannel true ws D lo t0).resetAt = none) := by
  rcases hw : recordWait ws D t0 with _ | e
  · rw [record_stuck_spec ws D lo t0 hw]
    constructor
    · intro tu htu
      cases htu
    · intro _
      rfl
  · cases e with
    | ceiling tc =>
      rw [record_ceiling_spec ws D lo t0 tc hw]
      constructor
      · intro tu htu
        cases htu
      · intro _
        rfl
    | silence ts =>
      rw [record_silence_spec ws D lo t0 ts hw]
      have hs := recordSnapshot_spec ws lo ts
      have he := recordSnapshot_endTime ws lo ts
      constructor
      · intro tu htu
        obtain ⟨h1, rest, h2, h3⟩ := hs.1 tu htu
        exact ⟨ts, rfl, he, h1, rest, h2, h3⟩
      · exact hs.2

theorem waitFrom_silence (ws : List Write) (D t0 ks : Nat) (hks : ks ≤ 300)
    (hP : lastPacketAt ws (t0 + 10 * ks) + D ≤ t0 + 10 * ks)
    (hmin : ∀ j, j < ks → t0 + 10 * j < lastPacketAt ws (t0 + 10 * j) + D) :
    ∀ fuel k, k ≤ ks → ks - k < fuel →
      waitFrom ws D t0 fuel k = some (WaitExit.silence (t0 + 10 * ks)) := by
  intro fuel
  induction fuel with
  | zero => intro k h1 h2; omega
  | succ fuel ih =>
    intro k hk hfuel
    unfold waitFrom
    rcases Nat.eq_or_lt_of_le hk with heq | hlt
    · subst heq
      rw [if_neg (by omega)]
    · rw [if_pos (hmin k hlt), if_neg (by omega)]
      exact ih (k + 1) hlt (by omega)

theorem generateFrom_fail (llm : Nat → LlmAttempt) (delay : Nat) :
    ∀ remaining i, (∀ j, i ≤ j → j < i + remaining → (llm j).isOk = false) →
      generateFrom llm delay remaining i =
        { result := unavailableSentinel, calls := remaining,
          sleeps := List.replicate (remaining - 1) delay } := by
  intro remaining
  induction remaining with
  | zero => intro i h; rfl
  | succ rem ih =>
    intro i h
    have hi : (llm i).isOk = false := h i (le_refl i) (by omega)
    have step : generateFrom llm delay rem (i + 1) =
        { result := unavailableSentinel, calls := rem,
          sleeps := List.replicate (rem - 1) delay } := by
      exact ih (i + 1) (by intro j h1 h2; exact h j (by omega) (by omega))
    have harm : ∀ g : GenOut, g = generateFrom llm delay rem (i + 1) →
        (if 0 < rem then
            ({ result := g.result, calls := g.calls + 1, sleeps := delay :: g.sleeps } : GenOut)
          else { result := g.result, calls := g.calls + 1, sleeps := g.sleeps }) =
        { result := unavailableSentinel, calls := rem + 1,
          sleeps := List.replicate (rem + 1 - 1) delay } := by
      intro g hg
      subst hg
      rw [step]
      by_cases h0 : 0 < rem
      · rw [if_pos h0]
        obtain ⟨k, rfl⟩ : ∃ k, rem = k + 1 := ⟨rem - 1, by omega⟩
        simp [List.replicate_succ]
      · rw [if_neg h0]
        have h0e : rem = 0 := by omega
        subst h0e
        rfl
    unfold generateFrom
    cases hllm : llm i with
    | ok t =>
      rw [hllm] at hi
      simp [LlmAttempt.isOk] at hi
    | httpError c => exact harm _ rfl
    | timeout => exact harm _ rfl
    | exn => exact harm _ rfl

theorem chunk_join_aux (n : Nat) :
    ∀ (k : Nat) (text : List Char), text.length ≤ k * n →
      ((List.range k).map (fun j => (text.drop (j * n)).take n)).flatten = text := by
  intro k
  induction k with
  | zero =>
    intro text h
    simp only [Nat.zero_mul, Nat.le_zero, List.length_eq_zero] at h
    subst h
    rfl
  | succ k ih =>
    intro text h
    have hsm : (k + 1) * n = k * n + n := Nat.succ_mul k n
    rw [List.range_succ_eq_map]
    simp only [List.map_cons, List.flatten_cons, List.map_map, Nat.zero_mul, List.drop_zero]
    have hcomp : ((fun j => (text.drop (j * n)).take n) ∘ Nat.succ)
        = fun j => ((text.drop n).drop (j * n)).take n := by
      funext j
      simp only [Function.comp_apply]
      rw [List.drop_drop, Nat.succ_mul, Nat.add_comm n (j * n)]
    rw [hcomp, ih (text.drop n) (by simp only [List.length_drop]; omega)]
    exact List.take_append_drop n text

theorem le_ceil_mul (len n : Nat) (hn : 0 < n) : len ≤ ((len + n - 1) / n) * n := by
  rcases Nat.eq_zero_or_pos len with h0 | hpos
  · subst h0
    exact Nat.zero_le _
  · obtain ⟨m, rfl⟩ : ∃ m, len = m + 1 := ⟨len - 1, by omega⟩
    have hrw : m + 1 + n - 1 = m + n := by omega
    rw [hrw, Nat.add_div_right m hn]
    have h2 := Nat.div_add_mod m n
    have h3 := Nat.mod_lt m hn
    calc m + 1 = n * (m / n) + (m % n + 1) := by omega
    _ ≤ n * (m / n) + n := Nat.add_le_add_left (by omega) _
    _ = (m / n + 1) * n := by ring

/-- C10: every chunk yielded by the reply splitter has length at most the
chunk size 1950, and the chunks concatenate in order to the original
text, so splitting loses and duplicates nothing. -/
theorem c10_chunk_bounds (text : List Char) :
    (∀ c ∈ chunkText text 1950, c.length ≤ 1950) ∧ (chunkText text 1950).flatten = text := by
  constructor
  · intro c hc
    simp only [chunkText, pyRange, List.map_map, List.mem_map] at hc
    obtain ⟨j, _, rfl⟩ := hc
    simp
  · have h := chunk_join_aux 1950 ((text.length + 1950 - 1) / 1950) text
      (le_ceil_mul text.length 1950 (by omega))
    simpa [chunkText, pyRange, List.map_map, Function.comp] using h

/-- Witness for C10 on a concrete reply. -/
theorem c10_chunk_bounds_witness :
    (chunkText ['a', 'b'] 1950).flatten = ['a', 'b'] ∧ (['a', 'b'] : List Char).length ≤ 1950 :=
  ⟨(c10_chunk_bounds ['a', 'b']).2,
   (c10_chunk_bounds ['a', 'b']).1 ['a', 'b'] (by decide)⟩

/-- C9: a failed join is surfaced as False, leaves the room-to-connection
map unchanged, leaves the voice-loop task map unchanged, and starts no
voice loop task. -/
theorem c9_join_failure (st : JoinState) (gid : Nat) (o : JoinOracle)
    (h : (joinVoiceChannel st.voiceClients gid o).1 = false) :
    (joinVoiceChannel st.voiceClients gid o).2 = st.voiceClients ∧
    (joinVoice st gid o).1 = st ∧ (joinVoice st gid o).2 = false := by
  have hmap : (joinVoiceChannel st.voiceClients gid o).2 = st.voiceClients := by
    by_cases h1 : o.userInVoice
    · by_cases h2 : (st.voiceClients.lookup gid).isSome && o.disconnectRaises
      · unfold joinVoiceChannel
        rw [if_neg (by simp [h1]), if_pos h2]
      · rcases hc : o.connectResult with _ | hdl
        · unfold joinVoiceChannel
          rw [if_neg (by simp [h1]), if_neg h2, hc]
        · exfalso
          unfold joinVoiceChannel at h
          rw [if_neg (by simp [h1]), if_neg h2, hc] at h
          simp at h
    · unfold joinVoiceChannel
      rw [if_pos (by simp [h1])]
  have hfalse : ¬((joinVoiceChannel st.voiceClients gid o).1 = true) := by
    simp [h]
  refine ⟨hmap, ?_, ?_⟩
  · by_cases h1 : o.userInVoice
    · unfold joinVoice
      rw [if_neg (by simp [h1]), if_neg hfalse, hmap]
    · unfold joinVoice
      rw [if_pos (by simp [h1])]
  · by_cases h1 : o.userInVoice
    · unfold joinVoice
      rw [if_neg (by simp [h1]), if_neg hfalse]
    · unfold joinVoice
      rw [if_pos (by simp [h1])]

/-- Witness for C9: a join whose disconnect step raises. -/
theorem c9_join_failure_witness :
    (joinVoiceChannel [(4, 9)] 4 c9jo).2 = [(4, 9)] ∧
    (joinVoice ⟨[(4, 9)], []⟩ 4 c9jo).1 = ⟨[(4, 9)], []⟩ ∧
    (joinVoice ⟨[(4, 9)], []⟩ 4 c9jo).2 = false :=
  c9_join_failure ⟨[(4, 9)], []⟩ 4 c9jo (by decide)

/-- C4 counterexample: a playback that the player finishes at 35 s.  The
wait loop gives up at the 30 s ceiling and control returns to the turn
loop at 3000 cs, but the temp file is deleted only at 3500 cs, by the
after callback - not before control returns, contradicting the claim for
the timeout exit path. -/
theorem c4_counterexample :
    (playAndCleanup false false 3500).exit = PlayExit.timedOut ∧
    (playAndCleanup false false 3500).retTime = 3000 ∧
    (playAndCleanup false false 3500).deletions = [3500] ∧
    ¬(∀ d ∈ (playAndCleanup false false 3500).deletions,
        d ≤ (playAndCleanup false false 3500).retTime) := by
  refine ⟨?_, ?_, ?_, ?_⟩ <;> set_option maxRecDepth 10000 in decide

/-- C4 amended: on every exit path the temp file is deleted exactly once;
on the completion and error paths the deletion happens before control
returns, but on the 30 s timeout path it happens only when the player
later finishes, after control has returned to the turn loop. -/
theorem c4_cleanup_once (se pe : Bool) (finish : Nat) :
    (playAndCleanup se pe finish).deletions.length = 1 ∧
    ((playAndCleanup se pe finish).exit ≠ PlayExit.timedOut →
        ∀ d ∈ (playAndCleanup se pe finish).deletions,
          d ≤ (playAndCleanup se pe finish).retTime) ∧
    ((playAndCleanup se pe finish).exit = PlayExit.timedOut →
        ∀ d ∈ (playAndCleanup se pe finish).deletions,
          (playAndCleanup se pe finish).retTime < d) := by
  unfold playAndCleanup
  by_cases hse : se || pe
  · simp [hse]
  · simp only [hse, Bool.false_eq_true, if_false]
    by_cases hfin : finish ≤ playWaitFrom finish 301 0
    · simp [hfin]
    · simp only [if_neg hfin]
      refine ⟨rfl, ?_, ?_⟩
      · intro hne
        simp at hne
      · intro _ d hd
        simp only [List.mem_singleton] at hd
        subst hd
        omega

/-- Witness for C4 amended: a playback finishing at 0.8 s is deleted
before control returns. -/
theorem c4_cleanup_once_witness :
    (playAndCleanup false false 80).deletions.length = 1 ∧
    ∀ d ∈ (playAndCleanup false false 80).deletions,
      d ≤ (playAndCleanup false false 80).retTime :=
  ⟨(c4_cleanup_once false false 80).1,
   (c4_cleanup_once false false 80).2.1 (by set_option maxRecDepth 10000 in decide)⟩

/-- C2: for any packet schedule, if a silence gap of length D completes at
some poll of the wait loop (at index k0, before the 30 s ceiling), and at
the start of the wait the silence timeout had not already elapsed, then
the loop fires the silence exit at a time T that is at least D after the
last packet heard (never early) and less than one poll interval past
lastPacketTime + D. -/
theorem c2_endpoint_timing (ws : List Write) (D t0 k0 : Nat)
    (hstart : t0 ≤ lastPacketAt ws t0 + D)
    (hceil : k0 ≤ 300)
    (hgap : lastPacketAt ws (t0 + 10 * k0) + D ≤ t0 + 10 * k0) :
    ∃ T, recordWait ws D t0 = some (WaitExit.silence T) ∧
      lastPacketAt ws T + D ≤ T ∧ T < lastPacketAt ws T + D + 10 := by
  have hex : ∃ k, lastPacketAt ws (t0 + 10 * k) + D ≤ t0 + 10 * k := ⟨k0, hgap⟩
  have hPks := Nat.find_spec hex
  have hksle : Nat.find hex ≤ k0 := Nat.find_min' hex hgap
  have hmin : ∀ j, j < Nat.find hex →
      t0 + 10 * j < lastPacketAt ws (t0 + 10 * j) + D := by
    intro j hj
    have := Nat.find_min hex hj
    omega
  refine ⟨t0 + 10 * Nat.find hex, ?_, hPks, ?_⟩
  · exact waitFrom_silence ws D t0 (Nat.find hex) (le_trans hksle hceil) hPks hmin 302 0
      (Nat.zero_le _) (by omega)
  · rcases Nat.eq_zero_or_pos (Nat.find hex) with h0 | hpos
    · rw [h0] at hPks ⊢
      simp only [Nat.mul_zero, Nat.add_zero] at hPks ⊢
      omega
    · obtain ⟨j, hj⟩ : ∃ j, Nat.find hex = j + 1 := ⟨Nat.find hex - 1, by omega⟩
      have hjlt := hmin j (by omega)
      have hmono := lastPacketAt_mono ws
        (show t0 + 10 * j ≤ t0 + 10 * Nat.find hex by omega)
      omega

/-- Witness for C2 at a concrete packet schedule: one packet at time 0,
silence timeout 3.0 s; the loop fires at 300 cs or within one poll. -/
theorem c2_endpoint_timing_witness :
    ((0 : Nat) ≤ lastPacketAt c2ws 0 + 300 ∧ (31 : Nat) ≤ 300 ∧
      lastPacketAt c2ws (0 + 10 * 31) + 300 ≤ 0 + 10 * 31) ∧
    (∃ T, recordWait c2ws 300 0 = some (WaitExit.silence T) ∧
      lastPacketAt c2ws T + 300 ≤ T ∧ T < lastPacketAt c2ws T + 300 + 10) :=
  ⟨⟨by decide, by decide, by decide⟩,
   c2_endpoint_timing c2ws 300 0 31 (by decide) (by decide) (by decide)⟩

/-- C3 counterexample: a speaker keeps talking - inter-packet gaps of
1500 cs against a 2000 cs silence timeout - until the 30 s ceiling fires
at 3010 cs.  The speaker has buffered audio at that moment, yet the code
returns no turn (and performs no reset), contradicting the claim that a
buffered speaker still yields a Turn at the ceiling. -/
theorem c3_counterexample :
    recordWait c3ws 2000 0 = some (WaitExit.ceiling 3010) ∧
    sinkBuffers c3ws 0 3010 = [(7, [1, 2])] ∧
    (recordAudioFromChannel true c3ws 2000 0 0).result = none ∧
    (recordAudioFromChannel true c3ws 2000 0 0).resetAt = none := by
  refine ⟨?_, ?_, ?_, ?_⟩ <;> set_option maxRecDepth 10000 in decide

/-- C3 amended: when the 30 s ceiling fires the wait returns no turn and
performs no reset, regardless of buffered audio; a Turn is emitted only
through the silence exit, which selects the first speaker with a
non-empty buffer, snapshots it, and resets the sink. -/
theorem c3_ceiling_no_turn (ws : List Write) (D lo t0 : Nat) :
    (∀ tc, recordWait ws D t0 = some (WaitExit.ceiling tc) →
        (recordAudioFromChannel true ws D lo t0).result = none ∧
        (recordAudioFromChannel true ws D lo t0).resetAt = none) ∧
    (∀ tu, (recordAudioFromChannel true ws D lo t0).result = some tu →
        ∃ ts rest, recordWait ws D t0 = some (WaitExit.silence ts) ∧
          sinkBuffers ws lo ts = (tu.userId, tu.samples) :: rest ∧
          tu.samples ≠ [] ∧
          (recordAudioFromChannel true ws D lo t0).resetAt = some ts) := by
  constructor
  · intro tc hc
    rw [record_ceiling_spec ws D lo t0 tc hc]
    exact ⟨rfl, rfl⟩
  · intro tu htu
    obtain ⟨ts, hw, _, hreset, rest, hb, hne⟩ := (record_result_spec ws D lo t0).1 tu htu
    exact ⟨ts, rest, hw, hb, hne, hreset⟩

/-- Witness for C3 amended at the counterexample schedule: the ceiling
fires at 3010 cs and no turn or reset results. -/
theorem c3_ceiling_no_turn_witness :
    (recordAudioFromChannel true c3ws 2000 0 0).result = none ∧
    (recordAudioFromChannel true c3ws 2000 0 0).resetAt = none :=
  (c3_ceiling_no_turn c3ws 2000 0 0).1 3010 (by set_option maxRecDepth 10000 in decide)

theorem iter_fields (ws : List Write) (D lo t : Nat) (o : IterOracle) :
    (fullVoiceLoopIter ws D lo t o).extractStart = t ∧
    (fullVoiceLoopIter ws D lo t o).bufferLo = lo ∧
    (fullVoiceLoopIter ws D lo t o).extractEnd
        = (recordAudioFromChannel true ws D lo t).endTime ∧
    (fullVoiceLoopIter ws D lo t o).turn = (recordAudioFromChannel true ws D lo t).result ∧
    (fullVoiceLoopIter ws D lo t o).resetAt
        = (recordAudioFromChannel true ws D lo t).resetAt := by
  unfold fullVoiceLoopIter
  cases h : (recordAudioFromChannel true ws D lo t).result with
  | none => simp [h]
  | some tu =>
    by_cases hr : o.sttRaises
    · simp [h, hr]
    · by_cases hf : isFiltered o.sttText
      · simp [h, hr, hf]
      · simp [h, hr, hf]

theorem iter_ok (ws : List Write) (D lo t : Nat) (o : IterOracle) :
    IterOk (fullVoiceLoopIter ws D lo t o) := by
  have hge := recordAudio_endTime_ge ws D lo t
  unfold IterOk fullVoiceLoopIter
  cases h : (recordAudioFromChannel true ws D lo t).result with
  | none => simp [h]; omega
  | some tu =>
    by_cases hr : o.sttRaises
    · simp [h, hr]; omega
    · by_cases hf : isFiltered o.sttText
      · simp [h, hr, hf]; omega
      · simp only [h, hr, hf, Bool.false_eq_true, if_false, if_true]
        refine ⟨hge, by omega, ?_⟩
        intro s e hpipe
        simp only [Option.some.injEq, Prod.mk.injEq] at hpipe
        omega

theorem session_mem (ws : List Write) (D : Nat) :
    ∀ (os : List IterOracle) (lo t : Nat) (r : IterRecord),
      r ∈ fullVoiceLoop ws D os lo t → t ≤ r.extractStart ∧ IterOk r := by
  intro os
  induction os with
  | nil =>
    intro lo t r h
    simp [fullVoiceLoop] at h
  | cons o os ih =>
    intro lo t r h
    unfold fullVoiceLoop at h
    by_cases hg : o.connected && !o.cancelled
    · rw [if_pos hg] at h
      rcases List.mem_cons.mp h with rfl | htail
      · exact ⟨le_of_eq (iter_fields ws D lo t o).1.symm, iter_ok ws D lo t o⟩
      · obtain ⟨h1, h2⟩ := ih _ _ r htail
        have hf := iter_fields ws D lo t o
        have hok := iter_ok ws D lo t o
        unfold IterOk at hok
        refine ⟨?_, h2⟩
        have : t ≤ (fullVoiceLoopIter ws D lo t o).endT := by omega
        omega
    · rw [if_neg hg] at h
      simp at h

theorem session_pairwise (ws : List Write) (D : Nat) :
    ∀ (os : List IterOracle) (lo t : Nat),
      (fullVoiceLoop ws D os lo t).Pairwise pipeSeq := by
  intro os
  induction os with
  | nil => intro lo t; simp [fullVoiceLoop]
  | cons o os ih =>
    intro lo t
    unfold fullVoiceLoop
    split
    · rw [List.pairwise_cons]
      constructor
      · intro b hb s e hpipe
        obtain ⟨hge, hbok⟩ := session_mem ws D os _ _ b hb
        have hok := iter_ok ws D lo t o
        unfold IterOk at hok hbok
        have hpe := hok.2.2 s e hpipe
        constructor
        · omega
        · intro s2 e2 hb2
          have hb3 := hbok.2.2 s2 e2 hb2
          omega
      · exact ih _ _
    · exact List.Pairwise.nil

theorem session_head (ws : List Write) (D : Nat) :
    ∀ (os : List IterOracle) (lo t : Nat) (y : IterRecord),
      (fullVoiceLoop ws D os lo t).head? = some y →
        y.bufferLo = lo ∧ y.extractStart = t := by
  intro os lo t y h
  cases os with
  | nil => simp [fullVoiceLoop] at h
  | cons o os =>
    unfold fullVoiceLoop at h
    split at h
    · simp only [List.head?_cons, Option.some.injEq] at h
      subst h
      exact ⟨(iter_fields ws D lo t o).2.1, (iter_fields ws D lo t o).1⟩
    · simp at h

theorem session_chain (ws : List Write) (D : Nat) :
    ∀ (os : List IterOracle) (lo t : Nat),
      List.Chain' resetRel (fullVoiceLoop ws D os lo t) := by
  intro os
  induction os with
  | nil => intro lo t; simp [fullVoiceLoop]
  | cons o os ih =>
    intro lo t
    unfold fullVoiceLoop
    split
    · rw [List.chain'_cons']
      refine ⟨?_, ih _ _⟩
      intro y hy
      obtain ⟨h1, h2⟩ := session_head ws D os _ _ y hy
      unfold resetRel
      rw [h1, h2, (iter_fields ws D lo t o).2.1]
      exact ⟨rfl, rfl⟩
    · simp

theorem session_mem_form (ws : List Write) (D : Nat) :
    ∀ (os : List IterOracle) (lo t : Nat) (r : IterRecord),
      r ∈ fullVoiceLoop ws D os lo t →
        ∃ lo2 t2 o2, r = fullVoiceLoopIter ws D lo2 t2 o2 := by
  intro os
  induction os with
  | nil =>
    intro lo t r h
    simp [fullVoiceLoop] at h
  | cons o os ih =>
    intro lo t r h
    unfold fullVoiceLoop at h
    split at h
    · rcases List.mem_cons.mp h with rfl | htail
      · exact ⟨lo, t, o, rfl⟩
      · exact ih _ _ r htail
    · simp at h

/-- C1: within a session the turn pipeline runs are serialized - the
records of any full_voice_loop run are pairwise ordered so that a
pipeline run ends before the next extraction begins and before any later
pipeline run begins - and join_voice starts a voice loop task for a room
only when no task is registered for that room, so a second concurrent
loop per room is impossible by construction. -/
theorem c1_serialization :
    (∀ (ws : List Write) (D : Nat) (os : List IterOracle) (lo t : Nat),
        (fullVoiceLoop ws D os lo t).Pairwise pipeSeq) ∧
    (∀ (st : JoinState) (gid : Nat) (o : JoinOracle),
        (joinVoice st gid o).2 = true → st.voiceLoops.lookup gid = none) := by
  constructor
  · exact fun ws D => session_pairwise ws D
  · intro st gid o h
    by_cases h1 : o.userInVoice
    · unfold joinVoice at h
      rw [if_neg (by simp [h1])] at h
      by_cases h2 : (joinVoiceChannel st.voiceClients gid o).1
      · rw [if_pos h2] at h
        by_cases h3 : o.sendFails
        · rw [if_pos h3] at h
          simp at h
        · rw [if_neg h3] at h
          by_cases h4 : (st.voiceLoops.lookup gid).isNone
          · exact Option.isNone_iff_eq_none.mp h4
          · rw [if_neg h4] at h
            simp at h
      · rw [if_neg h2] at h
        simp at h
    · unfold joinVoice at h
      rw [if_pos (by simp [h1])] at h
      simp at h

/-- Witness for C1: an empty session trace is pairwise serialized, and a
join into a state with no registered loop starts the task, so the loop
map had no entry. -/
theorem c1_serialization_witness :
    (fullVoiceLoop [] 300 [] 0 0).Pairwise pipeSeq ∧
    List.lookup 3 ([] : List (Nat × Nat)) = none :=
  ⟨c1_serialization.1 [] 300 [] 0 0,
   c1_serialization.2 ⟨[], []⟩ 3 c1jo (by decide)⟩

/-- C5: a turn whose recognized text is empty, bracket-sentinel, or noise
(empty after stripping dots and spaces) never runs
process_voice_message - so the language model is not invoked and no bot
transcript is posted - posts no user transcript, and ends the iteration
without hitting the error handler. -/
theorem c5_noise_filter (ws : List Write) (D lo t : Nat) (o : IterOracle)
    (hr : o.sttRaises = false) (hf : isFiltered o.sttText = true)
    (ht : (fullVoiceLoopIter ws D lo t o).turn.isSome = true) :
    (fullVoiceLoopIter ws D lo t o).procT = none ∧
    (fullVoiceLoopIter ws D lo t o).pipe = none ∧
    (fullVoiceLoopIter ws D lo t o).loggedUser = false ∧
    (fullVoiceLoopIter ws D lo t o).errored = false := by
  rw [(iter_fields ws D lo t o).2.2.2.1] at ht
  cases h : (recordAudioFromChannel true ws D lo t).result with
  | none =>
    rw [h] at ht
    simp at ht
  | some tu =>
    unfold fullVoiceLoopIter
    simp [h, hr, hf]

/-- Witness for C5: a concrete turn whose recognized text is the bracket
sentinel is dropped without a language-model call or a log post. -/
theorem c5_noise_filter_witness :
    (fullVoiceLoopIter c5ws 300 0 0 c5o).turn.isSome = true ∧
    (fullVoiceLoopIter c5ws 300 0 0 c5o).procT = none ∧
    (fullVoiceLoopIter c5ws 300 0 0 c5o).pipe = none ∧
    (fullVoiceLoopIter c5ws 300 0 0 c5o).loggedUser = false ∧
    (fullVoiceLoopIter c5ws 300 0 0 c5o).errored = false :=
  ⟨by set_option maxRecDepth 10000 in decide,
   c5_noise_filter c5ws 300 0 0 c5o rfl (by decide)
     (by set_option maxRecDepth 10000 in decide)⟩

/-- C6: when every attempt at the language-model endpoint fails, the call
is retried exactly the configured number of attempts with the fixed
configured delay slept between consecutive attempts and returns the
unavailability sentinel instead of raising; and for any endpoint
behaviour at all, a reply that is empty (for example a 200 whose content
strips to empty) or carries a bracketed sentinel aborts the turn before
synthesis and before playback. -/
theorem c6_llm_retry :
    (∀ o : ProcOracle, (∀ i, i < o.retryAttempts → (o.llm i).isOk = false) →
        generateResponseAsync o.llm o.retryAttempts o.retryDelay =
          { result := unavailableSentinel, calls := o.retryAttempts,
            sleeps := List.replicate (o.retryAttempts - 1) o.retryDelay }) ∧
    (∀ o : ProcOracle,
        isSentinelOrEmpty
            (generateResponseAsync o.llm o.retryAttempts o.retryDelay).result = true →
        (processVoiceMessage true o).ttsCalled = false ∧
        (processVoiceMessage true o).playCalled = false ∧
        (processVoiceMessage true o).success = false) := by
  constructor
  · intro o hfail
    unfold generateResponseAsync
    exact generateFrom_fail o.llm o.retryDelay o.retryAttempts 0
      (by intro j h1 h2; exact hfail j (by omega))
  · intro o hse
    simp [processVoiceMessage, hse]

/-- Witness for C6: three timeouts in a row yield the sentinel after 3
calls and 2 sleeps and the turn is aborted before synthesis; and a 200
reply of only spaces strips to an empty reply, which also aborts before
synthesis and playback. -/
theorem c6_llm_retry_witness :
    generateResponseAsync c6o.llm c6o.retryAttempts c6o.retryDelay =
      { result := unavailableSentinel, calls := 3, sleeps := List.replicate 2 100 } ∧
    ((processVoiceMessage true c6o).ttsCalled = false ∧
     (processVoiceMessage true c6o).playCalled = false ∧
     (processVoiceMessage true c6o).success = false) ∧
    ((processVoiceMessage true c6oEmpty).ttsCalled = false ∧
     (processVoiceMessage true c6oEmpty).playCalled = false ∧
     (processVoiceMessage true c6oEmpty).success = false) :=
  ⟨c6_llm_retry.1 c6o (fun _ _ => rfl),
   c6_llm_retry.2 c6o (by decide),
   c6_llm_retry.2 c6oEmpty (by decide)⟩

/-- C7: a turn whose synthesis returns no audio path never invokes
playback and returns False without raising, and the session loop runs
every iteration to its end - a single turn's failure never terminates the
loop - as long as the room stays connected and is not cancelled. -/
theorem c7_turn_failure_isolation :
    (∀ o : ProcOracle, o.ttsPath = none →
        (processVoiceMessage true o).playCalled = false ∧
        (processVoiceMessage true o).success = false) ∧
    (∀ (ws : List Write) (D : Nat) (os : List IterOracle) (lo t : Nat),
        (∀ o ∈ os, o.connected = true ∧ o.cancelled = false) →
        (fullVoiceLoop ws D os lo t).length = os.length) := by
  constructor
  · intro o h
    by_cases hs : isSentinelOrEmpty
        (generateResponseAsync o.llm o.retryAttempts o.retryDelay).result
    · simp [processVoiceMessage, hs]
    · simp [processVoiceMessage, hs, h]
  · intro ws D os
    induction os with
    | nil =>
      intro lo t h
      rfl
    | cons o os ih =>
      intro lo t h
      have ho := h o (List.mem_cons_self o os)
      unfold fullVoiceLoop
      rw [if_pos (by rw [ho.1, ho.2]; rfl)]
      simp only [List.length_cons]
      rw [ih _ _ (fun o2 h2 => h o2 (List.mem_cons_of_mem o h2))]

/-- Witness for C7: a concrete turn with failed synthesis skips playback,
and a one-iteration session with that failure still completes its one
iteration. -/
theorem c7_turn_failure_isolation_witness :
    ((processVoiceMessage true c7po).playCalled = false ∧
     (processVoiceMessage true c7po).success = false) ∧
    (fullVoiceLoop [] 300 [c7io] 0 0).length = 1 :=
  ⟨c7_turn_failure_isolation.1 c7po rfl,
   c7_turn_failure_isolation.2 [] 300 [c7io] 0 0 (by
     intro o ho
     rw [List.mem_singleton] at ho
     subst ho
     exact ⟨rfl, rfl⟩)⟩

/-- C8 counterexample: turn 1 is extracted at 310 cs (reset at 310) and
its pipeline runs over the interval 320..420; the packet arriving at
350 cs - while that pipeline is processing - carries payload 9, and turn
2's buffer is exactly that payload: the packet was merged into the next
utterance, not dropped as the claim states. -/
theorem c8_counterexample :
    (fullVoiceLoop c8ws 300 [c8oA, c8oB] 0 0).map IterRecord.pipe
        = [some (320, 420), none] ∧
    (fullVoiceLoop c8ws 300 [c8oA, c8oB] 0 0).map IterRecord.turn
        = [some ⟨7, [1, 2]⟩, some ⟨7, [9]⟩] ∧
    (fullVoiceLoop c8ws 300 [c8oA, c8oB] 0 0).map IterRecord.resetAt
        = [some 310, some 650] ∧
    c8ws = [⟨10, 7, [1, 2]⟩, ⟨350, 7, [9]⟩] ∧
    (320 ≤ 350 ∧ 350 ≤ 420) := by
  refine ⟨?_, ?_, ?_, by decide, by decide⟩ <;>
    set_option maxRecDepth 10000 in decide

/-- C8 amended: the aggregator is reset exactly once per emitted turn, at
snapshot time during extraction - before that turn's pipeline begins -
and never otherwise; consecutive iterations chain so that the next
buffer window opens at that reset, hence packets arriving while the
pipeline is processing are retained and appear in the next turn's
snapshot window rather than being dropped. -/
theorem c8_reset_merge (ws : List Write) (D : Nat) (os : List IterOracle) (lo t : Nat) :
    (∀ r ∈ fullVoiceLoop ws D os lo t,
        (∀ tu, r.turn = some tu →
            r.resetAt = some r.extractEnd ∧
            ∃ rest, sinkBuffers ws r.bufferLo r.extractEnd
                = (tu.userId, tu.samples) :: rest) ∧
        (r.turn = none → r.resetAt = none) ∧
        (∀ s e, r.pipe = some (s, e) → r.extractEnd ≤ s)) ∧
    List.Chain' resetRel (fullVoiceLoop ws D os lo t) := by
  constructor
  · intro r hr
    obtain ⟨lo2, t2, o2, rfl⟩ := session_mem_form ws D os lo t r hr
    have hf := iter_fields ws D lo2 t2 o2
    have hok := iter_ok ws D lo2 t2 o2
    have hrs := record_result_spec ws D lo2 t2
    refine ⟨?_, ?_, ?_⟩
    · intro tu htu
      rw [hf.2.2.2.1] at htu
      obtain ⟨ts, _, hend, hreset, rest, hb, _⟩ := hrs.1 tu htu
      constructor
      · rw [hf.2.2.2.2, hreset, hf.2.2.1, hend]
      · refine ⟨rest, ?_⟩
        rw [hf.2.1, hf.2.2.1, hend]
        exact hb
    · intro htn
      rw [hf.2.2.2.1] at htn
      rw [hf.2.2.2.2]
      exact hrs.2 htn
    · intro s e hpipe
      unfold IterOk at hok
      exact (hok.2.2 s e hpipe).1
  · exact session_chain ws D os lo t

/-- Witness for C8 amended: turn 1 of the counterexample run resets
exactly at its extraction end and its snapshot is the head of the buffer
window. -/
theorem c8_reset_merge_witness :
    (fullVoiceLoopIter c8ws 300 0 0 c8oB).resetAt
        = some (fullVoiceLoopIter c8ws 300 0 0 c8oB).extractEnd ∧
    ∃ rest, sinkBuffers c8ws (fullVoiceLoopIter c8ws 300 0 0 c8oB).bufferLo
        (fullVoiceLoopIter c8ws 300 0 0 c8oB).extractEnd
        = ((7 : Nat), ([1, 2] : List Int)) :: rest :=
  (c8_reset_merge c8ws 300 [c8oB] 0 0).1 (fullVoiceLoopIter c8ws 300 0 0 c8oB)
    (by simp [fullVoiceLoop, c8oB]) |>.1 ⟨7, [1, 2]⟩
    (by set_option maxRecDepth 10000 in decide)

end Merith
